import Mathlib

/-!
Shallow embedding of `src/manifestTools/validation.js` (manifoldjs-lib):
the validation-rule loader (`loadValidationRules`), the rule executor
(`runValidationRules`), the coordinator (`validateManifest`) and the two
icon rule bodies (`imageValidation`, `imageGroupValidation`).

Modelling conventions:
* Promises become `Except String`; a rejected promise is `.error msg`.
* `console.log` output is made explicit: the loader returns the list of
  logged diagnostics as the second component of its result (the executor
  never logs, so its log component is always `[]`).
* The filesystem under a rules directory is an explicit `FsNode` value:
  a file carries the outcome of `require`-ing it, a directory either
  lists its named children or fails to be read.
* JavaScript truthiness of the document content and of a loaded module
  value is modelled with `Option` / the `LoadValue.undef` constructor.
* The `platforms` parameter of the loader is `Option (List String)`:
  `none` models the argument being `undefined` (as happens when
  `validateManifest` calls the loader without forwarding `platforms`),
  in which case `platforms.indexOf(file)` throws a `TypeError` inside
  that entry's promise chain.
* Callbacks settle synchronously in entry order; the source schedules
  them on one logical thread, and no claim depends on cross-entry
  completion order.
-/

namespace ManifoldValidation

/-- Outcome a validation rule delivers through its completion callback
`callback(err, ruleResult)`: an error (`err` truthy), an array result, a
single truthy result, or no result (`ruleResult` falsy). -/
inductive RuleOutcome (ρ : Type) where
  | err (msg : String)
  | arr (rs : List ρ)
  | single (r : ρ)
  | noResult
deriving DecidableEq

/-- A validation rule: receives the document content (possibly absent) and
completes with a `RuleOutcome`. -/
def Rule (κ ρ : Type) : Type :=
  Option κ → RuleOutcome ρ

/-- `w3cManifestInfo`: the document plus its format tag. `content = none`
models a falsy `content` member. -/
structure ManifestInfo (κ : Type) where
  content : Option κ
  format : String

/-- Value exported by a rule module file: falsy (`undef`), a single rule,
or an array of rules. -/
inductive LoadValue (α : Type) where
  | undef
  | one (r : α)
  | many (rs : List α)
deriving DecidableEq

/-- A node of the rules directory tree: a file (whose `require` either
yields a value or throws with a message), a directory whose `readdir`
fails with a message, or a readable directory with named children. -/
inductive FsNode (α : Type) where
  | file (res : Except String (LoadValue α))
  | badDir (msg : String)
  | dir (entries : List (String × FsNode α))

/-- Whether `fs.stat` reports the node as a plain file. -/
def FsNode.isFile {α : Type} : FsNode α → Bool
  | .file _ => true
  | _ => false

/-- One settled entry of the loader's `Q.allSettled`: fulfilled with a
value, or rejected with a reason. -/
inductive Settled (α : Type) where
  | fulfilled (v : LoadValue α)
  | rejected (reason : String)

/-- `path.join` for the paths appearing in error messages. -/
def pathJoin (a b : String) : String :=
  a ++ "/" ++ b

/-- The loader's fatal wrapping error (validation.js line 63). -/
def directoryReadErrorMsg (validationRulesDir msg : String) : String :=
  "Failed to read validation rules from the specified folder: '" ++
    validationRulesDir ++ "'. " ++ msg ++ "."

/-- The per-file load failure reason (validation.js line 38). -/
def ruleLoadErrorMsg (file msg : String) : String :=
  "Failed to load validation rule from file: '" ++ file ++ "'. " ++ msg ++ "."

/-- Message of the `TypeError` thrown by `platforms.indexOf(file)` when the
loader runs with `platforms` undefined. -/
def undefinedPlatformsMsg : String :=
  "TypeError: Cannot read properties of undefined (reading 'indexOf')"

/-- The reducer of the loader's consolidation step (validation.js lines
43-59): a fulfilled truthy value is flattened into the rule list, a
rejection is logged and dropped. Each settled entry carries the
diagnostics its own processing already logged (from recursion). -/
def consolidateStep {α : Type} (acc : List α × List String)
    (result : Settled α × List String) : List α × List String :=
  match result.1 with
  | .fulfilled .undef => (acc.1, acc.2 ++ result.2)
  | .fulfilled (.one r) => (acc.1 ++ [r], acc.2 ++ result.2)
  | .fulfilled (.many rs) => (acc.1 ++ rs, acc.2 ++ result.2)
  | .rejected reason => (acc.1, acc.2 ++ result.2 ++ [reason])

/-- `results.reduce(...)` over the settled entries. -/
def consolidate {α : Type} (results : List (Settled α × List String)) :
    List α × List String :=
  results.foldl consolidateStep ([], [])

mutual

/-- `loadValidationRules(validationRulesDir, platforms)` over the
filesystem model. `platforms = none` models the argument being
`undefined`. Returns the consolidated rule list plus the diagnostics
printed via `console.log`, or the wrapped directory-read error. -/
def loadValidationRules {α : Type} (validationRulesDir : String)
    (platforms : Option (List String)) :
    FsNode α → Except String (List α × List String)
  | .file _ =>
    .error (directoryReadErrorMsg validationRulesDir "ENOTDIR: not a directory")
  | .badDir msg => .error (directoryReadErrorMsg validationRulesDir msg)
  | .dir entries =>
    .ok (consolidate (settleEntries validationRulesDir platforms entries))

/-- The `files.map(...)` stage feeding the loader's `Q.allSettled`. -/
def settleEntries {α : Type} (validationRulesDir : String)
    (platforms : Option (List String)) :
    List (String × FsNode α) → List (Settled α × List String)
  | [] => []
  | e :: es =>
    settleEntry validationRulesDir platforms e ::
      settleEntries validationRulesDir platforms es

/-- One directory entry's promise (validation.js lines 20-40): a file is
`require`d (a throw becomes a rejection); a directory is skipped unless
its name is in `platforms`, matched directories are recursed into with an
empty platform filter; with `platforms` undefined, `indexOf` throws and
the entry's promise rejects with the `TypeError`. -/
def settleEntry {α : Type} (validationRulesDir : String)
    (platforms : Option (List String)) :
    String × FsNode α → Settled α × List String
  | (file, .file res) =>
    match res with
    | .ok v => (.fulfilled v, [])
    | .error msg => (.rejected (ruleLoadErrorMsg file msg), [])
  | (file, .badDir m) =>
    match platforms with
    | none => (.rejected undefinedPlatformsMsg, [])
    | some ps =>
      if file ∈ ps then
        match loadValidationRules (pathJoin validationRulesDir file)
            (some []) (.badDir m) with
        | .ok (rules, diags) => (.fulfilled (.many rules), diags)
        | .error msg => (.rejected msg, [])
      else (.fulfilled .undef, [])
  | (file, .dir centries) =>
    match platforms with
    | none => (.rejected undefinedPlatformsMsg, [])
    | some ps =>
      if file ∈ ps then
        match loadValidationRules (pathJoin validationRulesDir file)
            (some []) (.dir centries) with
        | .ok (rules, diags) => (.fulfilled (.many rules), diags)
        | .error msg => (.rejected msg, [])
      else (.fulfilled .undef, [])

end

/-- The rule list of a loader outcome (empty if the call rejected). -/
def loadedRules {α : Type} (x : Except String (List α × List String)) : List α :=
  match x with
  | .ok (rs, _) => rs
  | .error _ => []

/-- Append one rule's callback result to the accumulated results
(validation.js lines 77-89): error → nothing, array → all entries,
single truthy value → that value, falsy → nothing. -/
def applyRuleResult {κ ρ : Type} (content : Option κ) (results : List ρ)
    (validationRule : Rule κ ρ) : List ρ :=
  match validationRule content with
  | .err _ => results
  | .arr rs => results ++ rs
  | .single r => results ++ [r]
  | .noResult => results

/-- `runValidationRules(w3cManifestInfo, rules)`: every rule runs against
`w3cManifestInfo.content`; the call always resolves once all tasks settle.
The second component is the function's log output — it never logs. -/
def runValidationRules {κ ρ : Type} (w3cManifestInfo : ManifestInfo κ)
    (rules : List (Rule κ ρ)) : Except String (List ρ × List String) :=
  .ok (rules.foldl (applyRuleResult w3cManifestInfo.content) [], [])

/-- Modelled from the spec: `constants.BASE_MANIFEST_FORMAT` (the
`constants` module is not among the source files under verification; the
spec calls it "the required base format" and the claims depend only on
equality with it). -/
def BASE_MANIFEST_FORMAT : String := "w3c"

/-- `path.join(__dirname, 'validationRules')`. -/
def validationRulesDir : String :=
  pathJoin "manifestTools" "validationRules"

/-- An external platform collaborator (`platformModules` entry). -/
structure PlatformModule (κ ρ : Type) where
  getValidationRules : List String → Except String (List (Rule κ ρ))

/-- The results a `runValidationRules` call accumulates (its resolve
value). -/
def runResults {κ ρ : Type} (info : ManifestInfo κ) (rules : List (Rule κ ρ)) :
    List ρ :=
  match runValidationRules info rules with
  | .ok (rs, _) => rs
  | .error _ => []

/-- One platform pipeline of `validateManifest` (lines 118-124): ask the
collaborator for rules and run them; a rejected pipeline contributes
nothing (`Q.allSettled` swallows it). -/
def platformStep {κ ρ : Type} (info : ManifestInfo κ) (platforms : List String)
    (acc : List ρ) (platform : PlatformModule κ ρ) : List ρ :=
  match platform.getValidationRules platforms with
  | .error _ => acc
  | .ok rules => acc ++ runResults info rules

/-- `validateManifest(w3cManifestInfo, platformModules, platforms)`. The
built-in rules directory is an explicit filesystem parameter. Note the
source calls `loadValidationRules(validationRulesDir)` with no second
argument, so the common load runs with `platforms` undefined (`none`). -/
def validateManifest {κ ρ : Type} (builtinRulesDir : FsNode (Rule κ ρ))
    (w3cManifestInfo : Option (ManifestInfo κ))
    (platformModules : List (PlatformModule κ ρ)) (platforms : List String) :
    Except String (List ρ) :=
  match w3cManifestInfo with
  | none => .error "Manifest content is empty or invalid."
  | some info =>
    match info.content with
    | none => .error "Manifest content is empty or invalid."
    | some _ =>
      if info.format ≠ BASE_MANIFEST_FORMAT then
        .error "The manifest passed as argument is not a W3C manifest."
      else
        match loadValidationRules validationRulesDir none builtinRulesDir with
        | .error e => .error e
        | .ok (rules, _) =>
          .ok (platformModules.foldl (platformStep info platforms)
            (runResults info rules))

/-- Modelled from the spec: `constants.validation.manifestMembers.icons`. -/
def manifestMembersIcons : String := "icons"

/-- Modelled from the spec: `constants.validation.codes.missingImage`. -/
def codesMissingImage : String := "missingImage"

/-- Modelled from the spec: `constants.validation.codes.missingImageGroup`. -/
def codesMissingImageGroup : String := "missingImageGroup"

/-- Modelled from the spec: `constants.validation.levels.warning`. -/
def levelsWarning : String := "warning"

/-- One entry of the manifest's `icons` member; `sizes` compared with
strict equality. -/
structure Icon (σ : Type) where
  sizes : σ
deriving DecidableEq

/-- The document content the icon rules read; `icons = none` models a
falsy `icons` member. -/
structure ManifestContent (σ : Type) where
  icons : Option (List (Icon σ))
deriving DecidableEq

/-- A finding emitted by a rule. -/
structure ResultRecord (σ : Type) where
  description : String
  platform : String
  level : String
  member : String
  code : String
  data : List σ
deriving DecidableEq

/-- The double loop of `imageValidation` (lines 153-166): required sizes
with no matching icon, in required order. -/
def missingSizes {σ : Type} [DecidableEq σ] (icons : List (Icon σ)) :
    List σ → List σ
  | [] => []
  | requiredIcon :: rest =>
    if icons.any (fun icon => decide (icon.sizes = requiredIcon)) then
      missingSizes icons rest
    else requiredIcon :: missingSizes icons rest

/-- `imageValidation(manifestContent, description, platform, level,
requiredIconSizes, callback)`: `some r` models `callback(undefined, r)`,
`none` models `callback()`. -/
def imageValidation {σ : Type} [DecidableEq σ]
    (manifestContent : ManifestContent σ) (description platform level : String)
    (requiredIconSizes : List σ) : Option (ResultRecord σ) :=
  let result : ResultRecord σ :=
    { description := description, platform := platform, level := level,
      member := manifestMembersIcons, code := codesMissingImage,
      data := requiredIconSizes }
  match manifestContent.icons with
  | none => some result
  | some icons =>
    if icons.length = 0 then some result
    else
      let missingIconsSizes := missingSizes icons requiredIconSizes
      if missingIconsSizes.length = 0 then none
      else some { result with data := missingIconsSizes }

/-- `imageGroupValidation(manifestContent, description, platform,
validIconSizes, callback)`: reports nothing as soon as one icon size
matches a valid size, otherwise a warning carrying all valid sizes. -/
def imageGroupValidation {σ : Type} [DecidableEq σ]
    (manifestContent : ManifestContent σ) (description platform : String)
    (validIconSizes : List σ) : Option (ResultRecord σ) :=
  let result : ResultRecord σ :=
    { description := description, platform := platform,
      level := levelsWarning, member := manifestMembersIcons,
      code := codesMissingImageGroup, data := validIconSizes }
  match manifestContent.icons with
  | none => some result
  | some icons =>
    if icons.length = 0 then some result
    else if icons.any (fun icon =>
        validIconSizes.any (fun v => decide (icon.sizes = v))) then none
    else some result

/-- Follows the spec's words for claim C3 (compared against
`validateManifest`, which it otherwise copies): the common rule set is
loaded with the caller's `platforms` list as the platform filter. -/
def validateManifestSpecFiltered {κ ρ : Type} (builtinRulesDir : FsNode (Rule κ ρ))
    (w3cManifestInfo : Option (ManifestInfo κ))
    (platformModules : List (PlatformModule κ ρ)) (platforms : List String) :
    Except String (List ρ) :=
  match w3cManifestInfo with
  | none => .error "Manifest content is empty or invalid."
  | some info =>
    match info.content with
    | none => .error "Manifest content is empty or invalid."
    | some _ =>
      if info.format ≠ BASE_MANIFEST_FORMAT then
        .error "The manifest passed as argument is not a W3C manifest."
      else
        match loadValidationRules validationRulesDir (some platforms)
            builtinRulesDir with
        | .error e => .error e
        | .ok (rules, _) =>
          .ok (platformModules.foldl (platformStep info platforms)
            (runResults info rules))

mutual

/-- Follows the spec's words for claim C4 (compared against the loader's
recursion): beneath a matched platform directory everything is loaded
unconditionally, nested directories included. -/
def loadRulesSpecUnconditional {α : Type} (dirPath : String) :
    FsNode α → Except String (List α × List String)
  | .file _ => .error (directoryReadErrorMsg dirPath "ENOTDIR: not a directory")
  | .badDir msg => .error (directoryReadErrorMsg dirPath msg)
  | .dir entries => .ok (consolidate (settleEntriesUncond dirPath entries))

/-- Entry list stage of `loadRulesSpecUnconditional`. -/
def settleEntriesUncond {α : Type} (dirPath : String) :
    List (String × FsNode α) → List (Settled α × List String)
  | [] => []
  | e :: es => settleEntryUncond dirPath e :: settleEntriesUncond dirPath es

/-- One entry of `loadRulesSpecUnconditional`: files load as in the
source, directories are always recursed into. -/
def settleEntryUncond {α : Type} (dirPath : String) :
    String × FsNode α → Settled α × List String
  | (file, .file res) =>
    match res with
    | .ok v => (.fulfilled v, [])
    | .error msg => (.rejected (ruleLoadErrorMsg file msg), [])
  | (file, .badDir m) =>
    match loadRulesSpecUnconditional (pathJoin dirPath file) (.badDir m) with
    | .ok (rules, diags) => (.fulfilled (.many rules), diags)
    | .error msg => (.rejected msg, [])
  | (file, .dir centries) =>
    match loadRulesSpecUnconditional (pathJoin dirPath file) (.dir centries) with
    | .ok (rules, diags) => (.fulfilled (.many rules), diags)
    | .error msg => (.rejected msg, [])

end

/-! Decomposition helpers: the rule part and the diagnostics part of a
settled entry list, used to reason about `consolidate`. -/

/-- The rules a settled entry list contributes, in entry order. -/
def settledRules {α : Type} : List (Settled α × List String) → List α
  | [] => []
  | (.fulfilled .undef, _) :: rest => settledRules rest
  | (.fulfilled (.one r), _) :: rest => r :: settledRules rest
  | (.fulfilled (.many rs), _) :: rest => rs ++ settledRules rest
  | (.rejected _, _) :: rest => settledRules rest

/-- The diagnostics a settled entry list logs, in entry order. -/
def settledDiags {α : Type} : List (Settled α × List String) → List String
  | [] => []
  | (.fulfilled _, ds) :: rest => ds ++ settledDiags rest
  | (.rejected reason, ds) :: rest => ds ++ [reason] ++ settledDiags rest

/-- Per-rule contribution to the executor's accumulator. -/
def ruleContribution {ρ : Type} : RuleOutcome ρ → List ρ
  | .err _ => []
  | .arr rs => rs
  | .single r => [r]
  | .noResult => []

/-- Contributions of a rule list against a content, in rule order. -/
def contributions {κ ρ : Type} (content : Option κ) :
    List (Rule κ ρ) → List ρ
  | [] => []
  | r :: rs => ruleContribution (r content) ++ contributions content rs

theorem consolidate_foldl {α : Type} (l : List (Settled α × List String))
    (r : List α) (d : List String) :
    l.foldl consolidateStep (r, d) = (r ++ settledRules l, d ++ settledDiags l) := by
  induction l generalizing r d with
  | nil => simp [settledRules, settledDiags]
  | cons x xs ih =>
    obtain ⟨s, ds⟩ := x
    cases s with
    | fulfilled v =>
      cases v <;>
        simp [List.foldl_cons, consolidateStep, settledRules, settledDiags, ih]
    | rejected m =>
      simp [List.foldl_cons, consolidateStep, settledRules, settledDiags, ih]

theorem consolidate_eq {α : Type} (l : List (Settled α × List String)) :
    consolidate l = (settledRules l, settledDiags l) := by
  unfold consolidate
  rw [consolidate_foldl]
  simp

theorem settleEntries_append {α : Type} (p : String) (f : Option (List String))
    (a b : List (String × FsNode α)) :
    settleEntries p f (a ++ b) = settleEntries p f a ++ settleEntries p f b := by
  induction a with
  | nil => simp [settleEntries]
  | cons x xs ih => simp [settleEntries, ih]

theorem settledRules_append {α : Type} (a b : List (Settled α × List String)) :
    settledRules (a ++ b) = settledRules a ++ settledRules b := by
  induction a with
  | nil => simp [settledRules]
  | cons x xs ih =>
    obtain ⟨s, ds⟩ := x
    cases s with
    | fulfilled v => cases v <;> simp [settledRules, ih]
    | rejected m => simp [settledRules, ih]

theorem settledDiags_append {α : Type} (a b : List (Settled α × List String)) :
    settledDiags (a ++ b) = settledDiags a ++ settledDiags b := by
  induction a with
  | nil => simp [settledDiags]
  | cons x xs ih =>
    obtain ⟨s, ds⟩ := x
    cases s with
    | fulfilled v => simp [settledDiags, ih]
    | rejected m => simp [settledDiags, ih]

theorem runFoldl_eq_contributions {κ ρ : Type} (content : Option κ)
    (rules : List (Rule κ ρ)) (acc : List ρ) :
    rules.foldl (applyRuleResult content) acc = acc ++ contributions content rules := by
  induction rules generalizing acc with
  | nil => simp [contributions]
  | cons r rs ih =>
    rw [List.foldl_cons, ih, contributions]
    cases h : r content <;> simp [applyRuleResult, ruleContribution, h]

/-- C1. For every document info and every rule list, `runValidationRules`
resolves (never rejects) once all rule tasks settle, with the accumulated
list: an array outcome contributes all its entries, a single truthy
outcome contributes that result, a falsy outcome contributes nothing, and
an erroring rule contributes nothing — the error neither surfaces to the
caller (the call still resolves) nor reaches the log (the log component
is empty). -/
theorem runValidationRules_settles_all {κ ρ : Type} (info : ManifestInfo κ)
    (rules : List (Rule κ ρ)) :
    runValidationRules info rules = .ok (contributions info.content rules, []) := by
  unfold runValidationRules
  rw [runFoldl_eq_contributions]
  simp

/-- C2. `validateManifest` rejects with the empty-document error whenever
the document info or its content is missing, and with the format-mismatch
error whenever (the content being present) the format differs from the
required base format; each rejection is the same for every rules
directory and every platform module list, so no rule is loaded or run. -/
theorem validateManifest_precondition_errors {κ ρ : Type} :
    (∀ (builtinRulesDir : FsNode (Rule κ ρ))
        (platformModules : List (PlatformModule κ ρ)) (platforms : List String),
      validateManifest builtinRulesDir none platformModules platforms =
        .error "Manifest content is empty or invalid.") ∧
    (∀ (builtinRulesDir : FsNode (Rule κ ρ))
        (platformModules : List (PlatformModule κ ρ)) (platforms : List String)
        (format : String),
      validateManifest builtinRulesDir (some ⟨none, format⟩) platformModules
          platforms =
        .error "Manifest content is empty or invalid.") ∧
    (∀ (builtinRulesDir : FsNode (Rule κ ρ))
        (platformModules : List (PlatformModule κ ρ)) (platforms : List String)
        (c : κ) (format : String),
      format ≠ BASE_MANIFEST_FORMAT →
      validateManifest builtinRulesDir (some ⟨some c, format⟩) platformModules
          platforms =
        .error "The manifest passed as argument is not a W3C manifest.") := by
  refine ⟨fun _ _ _ => rfl, fun _ _ _ _ => rfl, fun _ _ _ c format h => ?_⟩
  simp [validateManifest, h]

/-- Witness for C2 at concrete inputs: a missing document, a document
with no content, and a document whose format is not the base format all
reject as stated, independently of an arbitrary rules directory. -/
theorem validateManifest_precondition_errors_witness :
    validateManifest (κ := Unit) (ρ := Nat) (.dir []) none [] [] =
        .error "Manifest content is empty or invalid." ∧
    validateManifest (κ := Unit) (ρ := Nat) (.badDir "EACCES") (some ⟨none, "w3c"⟩)
        [] [] = .error "Manifest content is empty or invalid." ∧
    validateManifest (κ := Unit) (ρ := Nat) (.dir []) (some ⟨some (), "appx"⟩)
        [] ["windows"] =
      .error "The manifest passed as argument is not a W3C manifest." := by
  refine ⟨?_, ?_, ?_⟩
  · exact validateManifest_precondition_errors.1 (.dir []) [] []
  · exact validateManifest_precondition_errors.2.1 (.badDir "EACCES") [] [] "w3c"
  · exact validateManifest_precondition_errors.2.2 (.dir []) [] ["windows"] ()
      "appx" (by decide)

/-- A directory entry holding a rule file that loads successfully to a
single rule. -/
def goodFile {α : Type} (e : String × α) : String × FsNode α :=
  (e.1, .file (.ok (.one e.2)))

theorem settleEntries_goodFiles {α : Type} (p : String)
    (f : Option (List String)) (l : List (String × α)) :
    settleEntries p f (l.map goodFile) =
      l.map (fun e => (Settled.fulfilled (.one e.2), ([] : List String))) := by
  induction l with
  | nil => simp [settleEntries]
  | cons x xs ih => simp [settleEntries, settleEntry, goodFile, ih]

theorem settledRules_goodSettled {α : Type} (l : List (String × α)) :
    settledRules (l.map (fun e => (Settled.fulfilled (.one e.2), ([] : List String)))) =
      l.map Prod.snd := by
  induction l with
  | nil => simp [settledRules]
  | cons x xs ih => simp [settledRules, ih]

theorem settledDiags_goodSettled {α : Type} (l : List (String × α)) :
    settledDiags (l.map (fun e => (Settled.fulfilled (.one e.2), ([] : List String)))) = [] := by
  induction l with
  | nil => simp [settledDiags]
  | cons x xs ih => simp [settledDiags, ih]

/-- C6. A rule directory holding one unloadable file among N
otherwise-valid rule files still resolves, with exactly the N valid rules
in listing order, and logs exactly one diagnostic — the wrapped load
failure; the failed entry contributes no rule. -/
theorem one_bad_file_isolated {α : Type} (dirPath : String)
    (platforms : Option (List String)) (pre post : List (String × α))
    (badName badMsg : String) :
    loadValidationRules dirPath platforms
        (.dir (pre.map goodFile ++ (badName, .file (.error badMsg)) :: post.map goodFile)) =
      .ok ((pre ++ post).map Prod.snd, [ruleLoadErrorMsg badName badMsg]) := by
  have hbad : settleEntry (α := α) dirPath platforms (badName, .file (.error badMsg)) =
      (.rejected (ruleLoadErrorMsg badName badMsg), []) := rfl
  simp [loadValidationRules, consolidate_eq, settleEntries_append,
    settleEntries, hbad, settleEntries_goodFiles, settledRules_append,
    settledDiags_append, settledRules_goodSettled, settledDiags_goodSettled,
    settledRules, settledDiags]

/-- C7. When listing the rules directory fails, the whole load call
rejects with an error wrapping both the directory path and the underlying
cause's message; the `.error` outcome carries no partial rule list. -/
theorem unreadable_directory_rejects {α : Type} (dirPath : String)
    (platforms : Option (List String)) (msg : String) :
    loadValidationRules (α := α) dirPath platforms (.badDir msg) =
      .error ("Failed to read validation rules from the specified folder: '" ++
        dirPath ++ "'. " ++ msg ++ ".") := rfl

theorem settledRules_skipped {α : Type} (l : List (Settled α × List String)) :
    settledRules ((Settled.fulfilled .undef, ([] : List String)) :: l) =
      settledRules l := rfl

theorem settledDiags_skipped {α : Type} (l : List (Settled α × List String)) :
    settledDiags ((Settled.fulfilled .undef, ([] : List String)) :: l) =
      settledDiags l := by
  simp [settledDiags]

/-- C5. An immediate subdirectory whose name is not in the requested
platform set is skipped entirely: the load result (rules and diagnostics
alike) is the same as if the entry were absent, so none of its contents
appear in the returned rule list. -/
theorem unmatched_subdirectory_skipped {α : Type} (dirPath name : String)
    (ps : List String) (child : FsNode α) (pre post : List (String × FsNode α))
    (hdir : child.isFile = false) (hname : name ∉ ps) :
    loadValidationRules dirPath (some ps) (.dir (pre ++ (name, child) :: post)) =
      loadValidationRules dirPath (some ps) (.dir (pre ++ post)) := by
  have hskip : settleEntry dirPath (some ps) (name, child) =
      (.fulfilled .undef, []) := by
    cases child with
    | file res => simp [FsNode.isFile] at hdir
    | badDir m => simp [settleEntry, hname]
    | dir centries => simp [settleEntry, hname]
  simp [loadValidationRules, consolidate_eq, settleEntries_append,
    settleEntries, hskip, settledRules_append, settledDiags_append,
    settledRules_skipped, settledDiags_skipped]

/-- Witness for C5: requesting `["android"]` against a tree with an
`ios/` subfolder (holding a rule) and a top-level rule file yields only
the top-level rule. -/
theorem unmatched_subdirectory_skipped_witness :
    loadValidationRules "rules" (some ["android"])
        (FsNode.dir (α := Nat)
          [("ios", .dir [("r.js", .file (.ok (.one 2)))]),
           ("common.js", .file (.ok (.one 1)))]) =
      .ok ([1], []) := by
  have h := unmatched_subdirectory_skipped "rules" "ios" ["android"]
    (FsNode.dir (α := Nat) [("r.js", .file (.ok (.one 2)))]) []
    [("common.js", .file (.ok (.one 1)))] rfl (by decide)
  rw [List.nil_append] at h
  rw [h]
  rfl

/-- Counterexample to C3 as stated: against a common rule tree holding an
`android/` subfolder with one rule, and `platforms = ["android"]`, the
source's `validateManifest` returns no results — the subdirectory is not
included although its name is in `platforms` — while the spec-words
variant (platform filter = `platforms`) returns that rule's result. -/
theorem validateManifest_filter_counterexample :
    validateManifest (κ := Unit) (ρ := Nat)
        (.dir [("android", .dir [("rule.js", .file (.ok (.one (fun _ => .single 7))))])])
        (some ⟨some (), "w3c"⟩) [] ["android"] = .ok [] ∧
    validateManifestSpecFiltered (κ := Unit) (ρ := Nat)
        (.dir [("android", .dir [("rule.js", .file (.ok (.one (fun _ => .single 7))))])])
        (some ⟨some (), "w3c"⟩) [] ["android"] = .ok [7] :=
  ⟨rfl, rfl⟩

/-- C3 (amended). `validateManifest` calls the loader without forwarding
`platforms`, so the common rule set is loaded with an undefined platform
filter: every subdirectory of the common rule directory has its entry
reject (the filter's `indexOf` throws) and is dropped, and the validation
result is as if the subdirectory were absent — regardless of the
requested platforms. -/
theorem validateManifest_subdir_dropped {κ ρ : Type}
    (pre post : List (String × FsNode (Rule κ ρ))) (name : String)
    (child : FsNode (Rule κ ρ)) (hdir : child.isFile = false)
    (w3cManifestInfo : Option (ManifestInfo κ))
    (platformModules : List (PlatformModule κ ρ)) (platforms : List String) :
    validateManifest (.dir (pre ++ (name, child) :: post)) w3cManifestInfo
        platformModules platforms =
      validateManifest (.dir (pre ++ post)) w3cManifestInfo
        platformModules platforms := by
  have hrej : settleEntry validationRulesDir none (name, child) =
      (.rejected undefinedPlatformsMsg, []) := by
    cases child with
    | file res => simp [FsNode.isFile] at hdir
    | badDir m => rfl
    | dir centries => rfl
  have hload : ∀ (entries : List (String × FsNode (Rule κ ρ))),
      loadValidationRules validationRulesDir none (.dir entries) =
        .ok (settledRules (settleEntries validationRulesDir none entries),
          settledDiags (settleEntries validationRulesDir none entries)) := by
    intro entries
    simp [loadValidationRules, consolidate_eq]
  have hrules :
      settledRules (settleEntries validationRulesDir none (pre ++ (name, child) :: post)) =
        settledRules (settleEntries validationRulesDir none (pre ++ post)) := by
    simp [settleEntries_append, settleEntries, hrej, settledRules_append,
      settledRules]
  cases w3cManifestInfo with
  | none => rfl
  | some info =>
    cases hc : info.content with
    | none => simp [validateManifest, hc]
    | some c =>
      by_cases hf : info.format = BASE_MANIFEST_FORMAT
      · simp only [validateManifest, hc, hload, hrules]
      · simp [validateManifest, hc, hf]

/-- Witness for the amended C3: a tree with an `android/` rule folder and
a top-level rule file validates exactly as the tree without the folder,
even though `"android"` is requested. -/
theorem validateManifest_subdir_dropped_witness :
    validateManifest (κ := Unit) (ρ := Nat)
        (.dir [("android", .dir [("rule.js", .file (.ok (.one (fun _ => .single 7))))]),
               ("common.js", .file (.ok (.one (fun _ => .single 1))))])
        (some ⟨some (), "w3c"⟩) [] ["android"] =
      validateManifest (κ := Unit) (ρ := Nat)
        (.dir [("common.js", .file (.ok (.one (fun _ => .single 1))))])
        (some ⟨some (), "w3c"⟩) [] ["android"] := by
  have h := validateManifest_subdir_dropped (κ := Unit) (ρ := Nat) []
    [("common.js", .file (.ok (.one (fun _ => .single 1))))] "android"
    (.dir [("rule.js", .file (.ok (.one (fun _ => .single 7))))]) rfl
    (some ⟨some (), "w3c"⟩) [] ["android"]
  simpa using h

/-- Counterexample to C4 as stated: filter `["android"]` against
`android/` holding a nested directory (with rule 2) and a top-level rule
file (rule 1): the source loads only rule 1 — the nested directory's
contents do not contribute — while the spec-words unconditional loader
also loads rule 2. -/
theorem nested_directory_counterexample :
    loadValidationRules "rules" (some ["android"])
        (FsNode.dir (α := Nat)
          [("android", .dir [("nested", .dir [("n.js", .file (.ok (.one 2)))]),
                             ("top.js", .file (.ok (.one 1)))])]) =
      .ok ([1], []) ∧
    loadRulesSpecUnconditional "rules"
        (FsNode.dir (α := Nat)
          [("android", .dir [("nested", .dir [("n.js", .file (.ok (.one 2)))]),
                             ("top.js", .file (.ok (.one 1)))])]) =
      .ok ([2, 1], []) :=
  ⟨rfl, rfl⟩

/-- The rules one settled entry contributes to the consolidated list. -/
def entryRules {α : Type} (se : Settled α × List String) : List α :=
  match se.1 with
  | .fulfilled .undef => []
  | .fulfilled (.one r) => [r]
  | .fulfilled (.many rs) => rs
  | .rejected _ => []

theorem settledRules_emptyFilter {α : Type} (p : String)
    (entries : List (String × FsNode α)) :
    settledRules (settleEntries p (some []) entries) =
      settledRules (settleEntries p (some [])
        (entries.filter (fun e => e.2.isFile))) := by
  induction entries with
  | nil => rfl
  | cons e rest ih =>
    obtain ⟨n, node⟩ := e
    cases node with
    | file res =>
      cases res with
      | ok v =>
        cases v <;>
          simp [settleEntries, settleEntry, List.filter_cons, FsNode.isFile,
            settledRules, ih]
      | error m =>
        simp [settleEntries, settleEntry, List.filter_cons, FsNode.isFile,
          settledRules, ih]
    | badDir m =>
      simp [settleEntries, settleEntry, List.filter_cons, FsNode.isFile,
        settledRules, ih]
    | dir c =>
      simp [settleEntries, settleEntry, List.filter_cons, FsNode.isFile,
        settledRules, ih]

/-- C4 (amended). A subdirectory whose name is in the platform filter is
recursed into with an empty platform filter, so it contributes exactly
the rules of its rule files: nested directories beneath it match the
empty filter never, are skipped, and contribute nothing — platform
filtering applies only at the first directory level, and deeper
directories never load. -/
theorem matched_platform_loads_files_only {α : Type} (dirPath name : String)
    (ps : List String) (centries : List (String × FsNode α))
    (hmatch : name ∈ ps) :
    entryRules (settleEntry dirPath (some ps) (name, .dir centries)) =
      loadedRules (loadValidationRules (pathJoin dirPath name) (some [])
        (.dir (centries.filter (fun e => e.2.isFile)))) := by
  simp only [settleEntry, hmatch, if_true, loadValidationRules, consolidate_eq,
    entryRules, loadedRules]
  exact settledRules_emptyFilter (pathJoin dirPath name) centries

/-- Witness for the amended C4: the matched `android/` folder holding a
nested directory (rule 2) and a rule file (rule 1) contributes exactly
`[1]`, the rules of its file children. -/
theorem matched_platform_loads_files_only_witness :
    entryRules (settleEntry "rules" (some ["android"])
        ("android", FsNode.dir (α := Nat)
          [("nested", .dir [("n.js", .file (.ok (.one 2)))]),
           ("top.js", .file (.ok (.one 1)))])) = [1] := by
  have h := matched_platform_loads_files_only "rules" "android" ["android"]
    (α := Nat)
    [("nested", .dir [("n.js", .file (.ok (.one 2)))]),
     ("top.js", .file (.ok (.one 1)))] (by decide)
  rw [h]
  rfl

theorem missingSizes_eq_filter {σ : Type} [DecidableEq σ]
    (icons : List (Icon σ)) (req : List σ) :
    missingSizes icons req =
      req.filter (fun s => decide (s ∉ icons.map Icon.sizes)) := by
  induction req with
  | nil => simp [missingSizes]
  | cons r rs ih =>
    have hany : (icons.any (fun icon => decide (icon.sizes = r)) = true) ↔
        r ∈ icons.map Icon.sizes := by
      simp [List.any_eq_true, List.mem_map]
    by_cases h : r ∈ icons.map Icon.sizes
    · rw [missingSizes, if_pos (hany.mpr h), ih, List.filter_cons_of_neg]
      simp [h]
    · rw [missingSizes, if_neg (fun hc => h (hany.mp hc)), ih,
        List.filter_cons_of_pos]
      simp [h]

/-- C8. The `requireIconSizes` rule body (`imageValidation`): a document
with no icons (absent or empty list) yields exactly one `missingImage`
result whose data is all of the required sizes; with icons present it
yields one result whose data is the subset of required sizes absent from
the icons' size list when that subset is non-empty, and nothing when
every required size is present. -/
theorem imageValidation_spec {σ : Type} [DecidableEq σ]
    (d p l : String) (req : List σ) (c : ManifestContent σ) :
    (c.icons = none →
      imageValidation c d p l req =
        some ⟨d, p, l, manifestMembersIcons, codesMissingImage, req⟩) ∧
    (c.icons = some [] →
      imageValidation c d p l req =
        some ⟨d, p, l, manifestMembersIcons, codesMissingImage, req⟩) ∧
    (∀ icons, c.icons = some icons → icons ≠ [] →
      imageValidation c d p l req =
        (if req.filter (fun s => decide (s ∉ icons.map Icon.sizes)) = [] then
          none
        else
          some ⟨d, p, l, manifestMembersIcons, codesMissingImage,
            req.filter (fun s => decide (s ∉ icons.map Icon.sizes))⟩)) := by
  refine ⟨fun h => by simp [imageValidation, h],
    fun h => by simp [imageValidation, h],
    fun icons hi hne => ?_⟩
  simp only [imageValidation, hi]
  rw [missingSizes_eq_filter]
  by_cases hm : req.filter (fun s => decide (s ∉ icons.map Icon.sizes)) = [] <;>
    simp [List.length_eq_zero, hne, hm]

/-- Witness for C8 at the spec's example: required `[16, 32]` against
icons `[{sizes: 16}]` yields one result with data `[32]`; against
`[{sizes: 16}, {sizes: 32}]` it yields no result. -/
theorem imageValidation_spec_witness :
    imageValidation (σ := Nat) ⟨some [⟨16⟩]⟩ "desc" "web" "error" [16, 32] =
      some ⟨"desc", "web", "error", manifestMembersIcons, codesMissingImage,
        [32]⟩ ∧
    imageValidation (σ := Nat) ⟨some [⟨16⟩, ⟨32⟩]⟩ "desc" "web" "error"
      [16, 32] = none := by
  constructor
  · have h := (imageValidation_spec "desc" "web" "error" [16, 32]
      (⟨some [⟨16⟩]⟩ : ManifestContent Nat)).2.2 [⟨16⟩] rfl (by decide)
    rw [h]
    rfl
  · have h := (imageValidation_spec "desc" "web" "error" [16, 32]
      (⟨some [⟨16⟩, ⟨32⟩]⟩ : ManifestContent Nat)).2.2 [⟨16⟩, ⟨32⟩] rfl
      (by decide)
    rw [h]
    rfl

/-- C9. The `requireAnyIconSize` rule body (`imageGroupValidation`): a
document with no icons yields exactly one warning-level
`missingImageGroup` result whose data is all of the valid sizes; with
icons present it yields nothing as soon as some icon's size matches a
valid size, and otherwise yields exactly one warning result carrying the
full valid-size list. -/
theorem imageGroupValidation_spec {σ : Type} [DecidableEq σ]
    (d p : String) (valid : List σ) (c : ManifestContent σ) :
    (c.icons = none →
      imageGroupValidation c d p valid =
        some ⟨d, p, levelsWarning, manifestMembersIcons,
          codesMissingImageGroup, valid⟩) ∧
    (c.icons = some [] →
      imageGroupValidation c d p valid =
        some ⟨d, p, levelsWarning, manifestMembersIcons,
          codesMissingImageGroup, valid⟩) ∧
    (∀ icons, c.icons = some icons → icons ≠ [] →
      imageGroupValidation c d p valid =
        (if ∃ icon ∈ icons, icon.sizes ∈ valid then none
        else
          some ⟨d, p, levelsWarning, manifestMembersIcons,
            codesMissingImageGroup, valid⟩)) := by
  refine ⟨fun h => by simp [imageGroupValidation, h],
    fun h => by simp [imageGroupValidation, h],
    fun icons hi hne => ?_⟩
  simp only [imageGroupValidation, hi]
  have hany : (icons.any (fun icon =>
      valid.any (fun v => decide (icon.sizes = v))) = true) ↔
      ∃ icon ∈ icons, icon.sizes ∈ valid := by
    simp [List.any_eq_true]
  by_cases h : ∃ icon ∈ icons, icon.sizes ∈ valid
  · simp [List.length_eq_zero, hne, hany.mpr h, h]
  · have : icons.any (fun icon =>
        valid.any (fun v => decide (icon.sizes = v))) = false := by
      cases hx : icons.any (fun icon =>
        valid.any (fun v => decide (icon.sizes = v))) with
      | true => exact absurd (hany.mp hx) h
      | false => rfl
    simp [List.length_eq_zero, hne, this, h]

/-- Witness for C9 at the spec's example: valid `[16, 32]` against icons
`[{sizes: 64}]` yields one warning result with data `[16, 32]`; against
`[{sizes: 64}, {sizes: 32}]` it yields no result. -/
theorem imageGroupValidation_spec_witness :
    imageGroupValidation (σ := Nat) ⟨some [⟨64⟩]⟩ "desc" "web" [16, 32] =
      some ⟨"desc", "web", levelsWarning, manifestMembersIcons,
        codesMissingImageGroup, [16, 32]⟩ ∧
    imageGroupValidation (σ := Nat) ⟨some [⟨64⟩, ⟨32⟩]⟩ "desc" "web"
      [16, 32] = none := by
  constructor
  · have h := (imageGroupValidation_spec "desc" "web" [16, 32]
      (⟨some [⟨64⟩]⟩ : ManifestContent Nat)).2.2 [⟨64⟩] rfl (by decide)
    rw [h]
    simp
  · have h := (imageGroupValidation_spec "desc" "web" [16, 32]
      (⟨some [⟨64⟩, ⟨32⟩]⟩ : ManifestContent Nat)).2.2 [⟨64⟩, ⟨32⟩] rfl
      (by decide)
    rw [h]
    simp

theorem platformFold_extends {κ ρ : Type} (info : ManifestInfo κ)
    (platforms : List String) (pms : List (PlatformModule κ ρ)) (acc : List ρ) :
    ∃ t, pms.foldl (platformStep info platforms) acc = acc ++ t := by
  induction pms generalizing acc with
  | nil => exact ⟨[], by simp⟩
  | cons pm rest ih =>
    rw [List.foldl_cons]
    cases h : pm.getValidationRules platforms with
    | error e =>
      obtain ⟨t, ht⟩ := ih acc
      exact ⟨t, by simp [platformStep, h, ht]⟩
    | ok rules =>
      obtain ⟨t, ht⟩ := ih (acc ++ runResults info rules)
      exact ⟨runResults info rules ++ t, by simp [platformStep, h, ht]⟩

/-- C10. In a successful `validateManifest` report, the results of the
common rule set form a contiguous prefix of the final list: the platform
pipelines only append after the common rules have run and merged. -/
theorem common_results_come_first {κ ρ : Type}
    (builtinRulesDir : FsNode (Rule κ ρ)) (info : ManifestInfo κ)
    (platformModules : List (PlatformModule κ ρ)) (platforms : List String)
    (res : List ρ) (commonRules : List (Rule κ ρ)) (diags : List String)
    (hload : loadValidationRules validationRulesDir none builtinRulesDir =
      .ok (commonRules, diags))
    (hrun : validateManifest builtinRulesDir (some info) platformModules
      platforms = .ok res) :
    ∃ platformResults, res = runResults info commonRules ++ platformResults := by
  cases hc : info.content with
  | none => simp [validateManifest, hc] at hrun
  | some c =>
    by_cases hf : info.format = BASE_MANIFEST_FORMAT
    · simp only [validateManifest, hc, hload] at hrun
      rw [if_neg (by simp [hf])] at hrun
      obtain ⟨t, ht⟩ := platformFold_extends info platforms platformModules
        (runResults info commonRules)
      rw [ht] at hrun
      exact ⟨t, by injection hrun with h; exact h.symm⟩
    · simp [validateManifest, hc, hf] at hrun

/-- Witness for C10: one common rule producing result 1 and one platform
module producing result 2 give the report `[1, 2]`, with the common
results in front. -/
theorem common_results_come_first_witness :
    ∃ platformResults,
      ([1, 2] : List Nat) =
        runResults (κ := Unit) (⟨some (), "w3c"⟩ : ManifestInfo Unit)
          [fun _ => .single 1] ++ platformResults := by
  exact common_results_come_first
    (.dir [("common.js", .file (.ok (.one (fun _ => .single 1))))])
    ⟨some (), "w3c"⟩
    [⟨fun _ => .ok [fun _ => .single 2]⟩] [] [1, 2]
    [fun _ => .single 1] [] rfl rfl

end ManifoldValidation
